import Mathlib

/-!
Shallow embedding of `main.go` of the mail-in-a-box REST API
(rate limiter plus mail-send HTTP handler), with theorems about its
specified behaviour.

Modelling conventions:
* Go `map[string]T` is modelled as `String → Option T`; a Go map read
  (which yields the zero value when the key is absent) is `(m k).getD 0`.
* `time.Time` values are modelled as nanosecond counts (`Nat`), matching
  the resolution of Go's `time.Duration`.  `Duration.Seconds` followed by
  the float multiplication and the `int(...)` truncation in `Allow` is
  modelled in exact integer arithmetic: `int(elapsed.Seconds()*maxPerSec)`
  is `((now - last) * maxPerSec).tdiv 1000000000` (truncation toward zero,
  which is Go's float-to-int conversion).
* Go `int` is modelled as `Int` (no overflow is reachable at the program's
  scales, so width is not modelled).
-/

/-- Nanoseconds in one second (`time.Second`). -/
def nsPerSec : Nat := 1000000000

/-- Nanoseconds in one hour (`time.Hour`), the inactivity threshold of the
cleanup sweep. -/
def nsPerHour : Nat := 3600000000000

/-- Pointwise update of a string-keyed map, modelling Go `m[k] = v`. -/
def updMap {α : Type} (m : String → Option α) (k : String) (v : α) :
    String → Option α :=
  fun x => if x = k then some v else m x

/-- `RateLimiter` of `main.go`: token bucket state per identity.
The mutex is not modelled (all access is serialized in the source); the
cleanup interval only schedules the sweep and is not part of the bucket
state transition itself. -/
structure RateLimiter where
  tokens : String → Option Int
  lastRefill : String → Option Nat
  maxPerSec : Int
  bucketSize : Int

/-- `NewRateLimiter` of `main.go`: empty maps, `bucketSize = maxPerSec * 2`. -/
def NewRateLimiter (maxPerSec : Int) : RateLimiter :=
  { tokens := fun _ => none
    lastRefill := fun _ => none
    maxPerSec := maxPerSec
    bucketSize := maxPerSec * 2 }

/-- The initialize-or-refill portion of `RateLimiter.Allow` (lines 58-74 of
`main.go`), run before the admission check: on first sight initialize
`tokens = bucketSize`, `lastRefill = now`; otherwise add
`int(elapsedSeconds * maxPerSec)` tokens (capped at `bucketSize`) when that
amount is positive, updating `lastRefill`, and do nothing when it is zero
or negative. -/
def RateLimiter.refillStep (rl : RateLimiter) (user : String) (now : Nat) :
    RateLimiter :=
  match rl.lastRefill user with
  | none =>
      { rl with
        tokens := updMap rl.tokens user rl.bucketSize
        lastRefill := updMap rl.lastRefill user now }
  | some lastTime =>
      let elapsedNs : Int := (now : Int) - (lastTime : Int)
      let tokensToAdd : Int := (elapsedNs * rl.maxPerSec).tdiv (nsPerSec : Int)
      if 0 < tokensToAdd then
        { rl with
          tokens := updMap rl.tokens user
            (min ((rl.tokens user).getD 0 + tokensToAdd) rl.bucketSize)
          lastRefill := updMap rl.lastRefill user now }
      else rl

/-- `RateLimiter.Allow` of `main.go`: initialize/refill, then deny when no
tokens are available, else consume one token and allow.  Returns the
decision together with the updated limiter state. -/
def RateLimiter.Allow (rl : RateLimiter) (user : String) (now : Nat) :
    Bool × RateLimiter :=
  let rl2 := rl.refillStep user now
  if (rl2.tokens user).getD 0 ≤ 0 then (false, rl2)
  else (true,
    { rl2 with
      tokens := updMap rl2.tokens user ((rl2.tokens user).getD 0 - 1) })

/-- `RateLimiter.cleanupInactiveBuckets` of `main.go`: remove every identity
whose `lastRefill` is strictly before `now - 1 hour` from both maps.  The
comparison is done in `Int` so that the threshold is meaningful even for
model times smaller than one hour. -/
def RateLimiter.cleanupInactiveBuckets (rl : RateLimiter) (now : Nat) :
    RateLimiter :=
  let inactive : String → Bool := fun u =>
    match rl.lastRefill u with
    | some t => decide ((t : Int) < (now : Int) - (nsPerHour : Int))
    | none => false
  { rl with
    tokens := fun u => if inactive u then none else rl.tokens u
    lastRefill := fun u => if inactive u then none else rl.lastRefill u }

/-- An externally observable operation on the rate limiter: an `Allow` call
for some identity at some time, or a cleanup sweep at some time. -/
inductive RLOp where
  | allow : String → Nat → RLOp
  | cleanup : Nat → RLOp

/-- Apply one operation to the limiter state. -/
def RLOp.apply (rl : RateLimiter) : RLOp → RateLimiter
  | .allow u now => (rl.Allow u now).2
  | .cleanup now => rl.cleanupInactiveBuckets now

/-- Run a sequence of operations from a starting state. -/
def runOps (rl : RateLimiter) : List RLOp → RateLimiter
  | [] => rl
  | op :: ops => runOps (op.apply rl) ops

/-- The bucket invariant: every identity's token count (a missing identity
counts as 0, as a Go map read does) lies between 0 and `bucketSize`. -/
def BucketInv (rl : RateLimiter) : Prop :=
  ∀ u, 0 ≤ (rl.tokens u).getD 0 ∧ (rl.tokens u).getD 0 ≤ rl.bucketSize

theorem updMap_self {α : Type} (m : String → Option α) (k : String) (v : α) :
    updMap m k v k = some v := by
  simp [updMap]

theorem updMap_other {α : Type} (m : String → Option α) (k x : String)
    (v : α) (h : x ≠ k) : updMap m k v x = m x := by
  simp [updMap, h]

theorem refillStep_maxPerSec (rl : RateLimiter) (u : String) (now : Nat) :
    (rl.refillStep u now).maxPerSec = rl.maxPerSec := by
  unfold RateLimiter.refillStep
  cases rl.lastRefill u <;> dsimp only <;> first | rfl | (split <;> rfl)

theorem refillStep_bucketSize (rl : RateLimiter) (u : String) (now : Nat) :
    (rl.refillStep u now).bucketSize = rl.bucketSize := by
  unfold RateLimiter.refillStep
  cases rl.lastRefill u <;> dsimp only <;> first | rfl | (split <;> rfl)

theorem bucketInv_refillStep (rl : RateLimiter) (u : String) (now : Nat)
    (h : BucketInv rl) (hb : 0 ≤ rl.bucketSize) :
    BucketInv (rl.refillStep u now) := by
  intro v
  unfold RateLimiter.refillStep
  cases hl : rl.lastRefill u with
  | none =>
    dsimp only
    by_cases hv : v = u
    · subst hv
      simp only [updMap_self, Option.getD_some]
      exact ⟨hb, le_refl _⟩
    · simp only [updMap_other _ _ _ _ hv]
      exact h v
  | some lastTime =>
    dsimp only
    split
    · rename_i hpos
      by_cases hv : v = u
      · subst hv
        simp only [updMap_self, Option.getD_some]
        have h1 := (h v).1
        omega
      · simp only [updMap_other _ _ _ _ hv]
        exact h v
    · exact h v

theorem bucketInv_allow (rl : RateLimiter) (u : String) (now : Nat)
    (h : BucketInv rl) (hb : 0 ≤ rl.bucketSize) :
    BucketInv (rl.Allow u now).2 := by
  have h2 := bucketInv_refillStep rl u now h hb
  unfold RateLimiter.Allow
  dsimp only
  split
  · exact h2
  · rename_i hpos
    intro v
    by_cases hv : v = u
    · subst hv
      simp only [updMap_self, Option.getD_some]
      have := h2 v
      omega
    · simp only [updMap_other _ _ _ _ hv]
      exact h2 v

theorem bucketInv_cleanup (rl : RateLimiter) (now : Nat)
    (h : BucketInv rl) (hb : 0 ≤ rl.bucketSize) :
    BucketInv (rl.cleanupInactiveBuckets now) := by
  intro v
  unfold RateLimiter.cleanupInactiveBuckets
  dsimp only
  split
  · simpa using hb
  · exact h v

theorem allow_bucketSize (rl : RateLimiter) (u : String) (now : Nat) :
    (rl.Allow u now).2.bucketSize = rl.bucketSize := by
  unfold RateLimiter.Allow
  dsimp only
  split
  · exact refillStep_bucketSize rl u now
  · exact refillStep_bucketSize rl u now

theorem cleanup_bucketSize (rl : RateLimiter) (now : Nat) :
    (rl.cleanupInactiveBuckets now).bucketSize = rl.bucketSize := rfl

theorem apply_bucketSize (rl : RateLimiter) (op : RLOp) :
    (op.apply rl).bucketSize = rl.bucketSize := by
  cases op with
  | allow u now => exact allow_bucketSize rl u now
  | cleanup now => exact cleanup_bucketSize rl now

theorem bucketInv_apply (rl : RateLimiter) (op : RLOp)
    (h : BucketInv rl) (hb : 0 ≤ rl.bucketSize) :
    BucketInv (op.apply rl) := by
  cases op with
  | allow u now => exact bucketInv_allow rl u now h hb
  | cleanup now => exact bucketInv_cleanup rl now h hb

theorem runOps_bucketSize (ops : List RLOp) (rl : RateLimiter) :
    (runOps rl ops).bucketSize = rl.bucketSize := by
  induction ops generalizing rl with
  | nil => rfl
  | cons op ops ih =>
    rw [runOps, ih, apply_bucketSize]

theorem bucketInv_runOps (ops : List RLOp) (rl : RateLimiter)
    (h : BucketInv rl) (hb : 0 ≤ rl.bucketSize) :
    BucketInv (runOps rl ops) := by
  induction ops generalizing rl with
  | nil => exact h
  | cons op ops ih =>
    rw [runOps]
    exact ih _ (bucketInv_apply rl op h hb)
      (by rw [apply_bucketSize]; exact hb)

/-- C1: for every identity and every sequence of `Allow` calls and cleanup
sweeps starting from a fresh limiter with a nonnegative rate, the token
count stays between 0 and `bucketSize` inclusive, and `bucketSize` is
`2 * maxPerSec`. -/
theorem c1_bucket_invariant (m : Int) (hm : 0 ≤ m) (ops : List RLOp)
    (u : String) :
    0 ≤ ((runOps (NewRateLimiter m) ops).tokens u).getD 0 ∧
    ((runOps (NewRateLimiter m) ops).tokens u).getD 0 ≤
      (runOps (NewRateLimiter m) ops).bucketSize ∧
    (runOps (NewRateLimiter m) ops).bucketSize = 2 * m := by
  have hb : 0 ≤ (NewRateLimiter m).bucketSize := by
    simp only [NewRateLimiter]
    omega
  have hinv : BucketInv (NewRateLimiter m) := by
    intro v
    simp only [NewRateLimiter, Option.getD_none]
    exact ⟨le_refl _, hb⟩
  have h := bucketInv_runOps ops (NewRateLimiter m) hinv hb u
  have hsz := runOps_bucketSize ops (NewRateLimiter m)
  refine ⟨h.1, h.2, ?_⟩
  rw [hsz]
  simp only [NewRateLimiter]
  omega

/-- C1 witness: the invariant instantiated on a concrete run with rate 10,
two `Allow` calls and a cleanup sweep, observed at identity `alice`. -/
theorem c1_bucket_invariant_witness :
    0 ≤ ((runOps (NewRateLimiter 10)
        [.allow "alice" 5, .allow "alice" 5, .cleanup 5]).tokens
          "alice").getD 0 ∧
    ((runOps (NewRateLimiter 10)
        [.allow "alice" 5, .allow "alice" 5, .cleanup 5]).tokens
          "alice").getD 0 ≤
      (runOps (NewRateLimiter 10)
        [.allow "alice" 5, .allow "alice" 5, .cleanup 5]).bucketSize ∧
    (runOps (NewRateLimiter 10)
        [.allow "alice" 5, .allow "alice" 5, .cleanup 5]).bucketSize =
      2 * 10 :=
  c1_bucket_invariant 10 (by decide)
    [.allow "alice" 5, .allow "alice" 5, .cleanup 5] "alice"

theorem int_tdiv_ofNat (a b : Nat) :
    (Int.ofNat a).tdiv (Int.ofNat b) = Int.ofNat (a / b) := rfl

/-- C2: for an existing identity, the refill run by `Allow` at a time `tNs`
nanoseconds after the stored `lastRefill` adds exactly
`floor(tSeconds * maxPerSec) = tNs * maxPerSec / nsPerSec` tokens capped at
`bucketSize` when that amount is positive (updating `lastRefill` to `now`),
leaves the state entirely unchanged when it is zero, and in all cases the
token count grows by at most that amount. -/
theorem c2_refill_exact_and_bounded (rl : RateLimiter) (u : String)
    (last tNs : Nat) (hm : 0 ≤ rl.maxPerSec)
    (hl : rl.lastRefill u = some last) :
    (0 < tNs * rl.maxPerSec.toNat / nsPerSec →
      ((rl.refillStep u (last + tNs)).tokens u).getD 0 =
        min ((rl.tokens u).getD 0 +
          ((tNs * rl.maxPerSec.toNat / nsPerSec : Nat) : Int)) rl.bucketSize ∧
      (rl.refillStep u (last + tNs)).lastRefill u = some (last + tNs)) ∧
    (tNs * rl.maxPerSec.toNat / nsPerSec = 0 →
      rl.refillStep u (last + tNs) = rl) ∧
    ((rl.refillStep u (last + tNs)).tokens u).getD 0 ≤
      (rl.tokens u).getD 0 + ((tNs * rl.maxPerSec.toNat / nsPerSec : Nat) : Int) := by
  have hms : rl.maxPerSec = ((rl.maxPerSec.toNat : Nat) : Int) :=
    (Int.toNat_of_nonneg hm).symm
  have helapsed : ((last + tNs : Nat) : Int) - ((last : Nat) : Int) =
      ((tNs : Nat) : Int) := by push_cast; ring
  have htoAdd : (((last + tNs : Nat) : Int) - ((last : Nat) : Int)) *
      rl.maxPerSec = ((tNs * rl.maxPerSec.toNat : Nat) : Int) := by
    rw [helapsed]
    push_cast
    rw [Int.toNat_of_nonneg hm]
  unfold RateLimiter.refillStep
  rw [hl]
  dsimp only
  rw [htoAdd]
  rw [show ((nsPerSec : Nat) : Int) = Int.ofNat nsPerSec from rfl]
  rw [show ((tNs * rl.maxPerSec.toNat : Nat) : Int) =
    Int.ofNat (tNs * rl.maxPerSec.toNat) from rfl]
  rw [int_tdiv_ofNat]
  by_cases hpos : 0 < tNs * rl.maxPerSec.toNat / nsPerSec
  · have hposI : (0 : Int) < Int.ofNat (tNs * rl.maxPerSec.toNat / nsPerSec) :=
      Int.ofNat_pos.mpr hpos
    rw [if_pos hposI]
    refine ⟨fun _ => ⟨?_, ?_⟩, fun hz => (Nat.lt_irrefl 0 (hz ▸ hpos)).elim, ?_⟩
    · simp only [updMap_self, Option.getD_some, Int.ofNat_eq_coe]
    · simp only [updMap_self]
    · simp only [updMap_self, Option.getD_some, Int.ofNat_eq_coe]
      exact min_le_left _ _
  · have hz : tNs * rl.maxPerSec.toNat / nsPerSec = 0 :=
      Nat.eq_zero_of_not_pos hpos
    have hnposI : ¬ (0 : Int) < Int.ofNat (tNs * rl.maxPerSec.toNat / nsPerSec) := by
      simp [hz]
    rw [if_neg hnposI]
    refine ⟨fun h => (Nat.lt_irrefl 0 (hz ▸ h)).elim, fun _ => rfl, ?_⟩
    simp [hz]

/-- C2 witness: a limiter with rate 10 whose identity `a` was last refilled
at time 0, probed 250 ms later: exactly 2 tokens are added. -/
theorem c2_refill_witness :
    (0 < 250000000 * ((NewRateLimiter 10).refillStep "a" 0).maxPerSec.toNat / nsPerSec →
      ((((NewRateLimiter 10).refillStep "a" 0).refillStep "a"
          (0 + 250000000)).tokens "a").getD 0 =
        min ((((NewRateLimiter 10).refillStep "a" 0).tokens "a").getD 0 +
          ((250000000 * ((NewRateLimiter 10).refillStep "a" 0).maxPerSec.toNat /
            nsPerSec : Nat) : Int))
          ((NewRateLimiter 10).refillStep "a" 0).bucketSize ∧
      (((NewRateLimiter 10).refillStep "a" 0).refillStep "a"
          (0 + 250000000)).lastRefill "a" = some (0 + 250000000)) ∧
    (250000000 * ((NewRateLimiter 10).refillStep "a" 0).maxPerSec.toNat /
        nsPerSec = 0 →
      ((NewRateLimiter 10).refillStep "a" 0).refillStep "a" (0 + 250000000) =
        (NewRateLimiter 10).refillStep "a" 0) ∧
    ((((NewRateLimiter 10).refillStep "a" 0).refillStep "a"
        (0 + 250000000)).tokens "a").getD 0 ≤
      (((NewRateLimiter 10).refillStep "a" 0).tokens "a").getD 0 +
        ((250000000 * ((NewRateLimiter 10).refillStep "a" 0).maxPerSec.toNat /
          nsPerSec : Nat) : Int) :=
  c2_refill_exact_and_bounded ((NewRateLimiter 10).refillStep "a" 0) "a"
    0 250000000 (by decide)
    (by simp [NewRateLimiter, RateLimiter.refillStep, updMap])

/-- C3: `Allow` returns `false` exactly when the token count left by the
refill step is ≤ 0, and then the state is exactly the refilled state (no
further mutation); when tokens remain it returns `true`, decrements that
identity's count by exactly 1, and touches nothing else. -/
theorem c3_allow_admission (rl : RateLimiter) (u : String) (now : Nat) :
    ((rl.Allow u now).1 = false ↔
      ((rl.refillStep u now).tokens u).getD 0 ≤ 0) ∧
    ((rl.Allow u now).1 = false →
      (rl.Allow u now).2 = rl.refillStep u now) ∧
    (0 < ((rl.refillStep u now).tokens u).getD 0 →
      (rl.Allow u now).1 = true ∧
      ((rl.Allow u now).2.tokens u).getD 0 =
        ((rl.refillStep u now).tokens u).getD 0 - 1 ∧
      (∀ v, v ≠ u →
        (rl.Allow u now).2.tokens v = (rl.refillStep u now).tokens v) ∧
      (rl.Allow u now).2.lastRefill = (rl.refillStep u now).lastRefill) := by
  unfold RateLimiter.Allow
  dsimp only
  by_cases h : ((rl.refillStep u now).tokens u).getD 0 ≤ 0
  · rw [if_pos h]
    exact ⟨⟨fun _ => h, fun _ => rfl⟩, fun _ => rfl,
      fun hpos => (absurd hpos (not_lt.mpr h))⟩
  · rw [if_neg h]
    refine ⟨⟨fun hfalse => by simp at hfalse, fun hle => absurd hle h⟩,
      fun hfalse => by simp at hfalse, fun _ => ⟨rfl, ?_, ?_, rfl⟩⟩
    · simp only [updMap_self, Option.getD_some]
    · intro v hv
      simp only [updMap_other _ _ _ _ hv]

/-- C3 witness: a fresh limiter with rate 10 admits identity `a` (20 tokens
after initialization), returning `true` with 19 tokens left. -/
theorem c3_allow_admission_witness :
    (((NewRateLimiter 10).Allow "a" 7).1 = false ↔
      ((((NewRateLimiter 10).refillStep "a" 7).tokens "a").getD 0 ≤ 0)) ∧
    (((NewRateLimiter 10).Allow "a" 7).1 = false →
      ((NewRateLimiter 10).Allow "a" 7).2 =
        (NewRateLimiter 10).refillStep "a" 7) ∧
    (0 < (((NewRateLimiter 10).refillStep "a" 7).tokens "a").getD 0 →
      ((NewRateLimiter 10).Allow "a" 7).1 = true ∧
      ((((NewRateLimiter 10).Allow "a" 7).2.tokens "a").getD 0 =
        (((NewRateLimiter 10).refillStep "a" 7).tokens "a").getD 0 - 1) ∧
      (∀ v, v ≠ "a" →
        ((NewRateLimiter 10).Allow "a" 7).2.tokens v =
          ((NewRateLimiter 10).refillStep "a" 7).tokens v) ∧
      ((NewRateLimiter 10).Allow "a" 7).2.lastRefill =
        ((NewRateLimiter 10).refillStep "a" 7).lastRefill) :=
  c3_allow_admission (NewRateLimiter 10) "a" 7

/-- C4: an identity whose `lastRefill` lies more than one hour before the
sweep time is removed from both maps by `cleanupInactiveBuckets`, and the
initialization step of a subsequent `Allow` call re-creates its bucket full
(`tokens = bucketSize`) with `lastRefill = now`. -/
theorem c4_cleanup_removes_and_reinit (rl : RateLimiter) (u : String)
    (t now now2 : Nat) (hl : rl.lastRefill u = some t)
    (hidle : (t : Int) < (now : Int) - (nsPerHour : Int)) :
    (rl.cleanupInactiveBuckets now).tokens u = none ∧
    (rl.cleanupInactiveBuckets now).lastRefill u = none ∧
    ((rl.cleanupInactiveBuckets now).refillStep u now2).tokens u =
      some rl.bucketSize ∧
    ((rl.cleanupInactiveBuckets now).refillStep u now2).lastRefill u =
      some now2 := by
  have hclean : ∀ x : String, x = u →
      (rl.cleanupInactiveBuckets now).tokens x = none ∧
      (rl.cleanupInactiveBuckets now).lastRefill x = none := by
    intro x hx
    subst hx
    unfold RateLimiter.cleanupInactiveBuckets
    dsimp only
    rw [hl]
    simp [hidle]
  obtain ⟨h1, h2⟩ := hclean u rfl
  refine ⟨h1, h2, ?_, ?_⟩
  · unfold RateLimiter.refillStep
    rw [h2]
    dsimp only
    rw [updMap_self]
    rfl
  · unfold RateLimiter.refillStep
    rw [h2]
    dsimp only
    rw [updMap_self]

/-- C4 witness: identity `a`, last refilled at time 0, is swept away one
hour and one nanosecond later and re-initializes to a full bucket of 20. -/
theorem c4_cleanup_witness :
    ((((NewRateLimiter 10).refillStep "a" 0).cleanupInactiveBuckets
        (nsPerHour + 1)).tokens "a" = none) ∧
    ((((NewRateLimiter 10).refillStep "a" 0).cleanupInactiveBuckets
        (nsPerHour + 1)).lastRefill "a" = none) ∧
    (((((NewRateLimiter 10).refillStep "a" 0).cleanupInactiveBuckets
        (nsPerHour + 1)).refillStep "a" (nsPerHour + 2)).tokens "a" =
      some ((NewRateLimiter 10).refillStep "a" 0).bucketSize) ∧
    (((((NewRateLimiter 10).refillStep "a" 0).cleanupInactiveBuckets
        (nsPerHour + 1)).refillStep "a" (nsPerHour + 2)).lastRefill "a" =
      some (nsPerHour + 2)) :=
  c4_cleanup_removes_and_reinit ((NewRateLimiter 10).refillStep "a" 0)
    "a" 0 (nsPerHour + 1) (nsPerHour + 2)
    (by simp [NewRateLimiter, RateLimiter.refillStep, updMap])
    (by simp [nsPerHour])

/-- Value of one base64 alphabet character (`encoding/base64` standard
alphabet), `none` for a character outside the alphabet. -/
def base64DigitVal (c : Char) : Option Nat :=
  if 'A' ≤ c ∧ c ≤ 'Z' then some (c.toNat - 'A'.toNat)
  else if 'a' ≤ c ∧ c ≤ 'z' then some (c.toNat - 'a'.toNat + 26)
  else if '0' ≤ c ∧ c ≤ '9' then some (c.toNat - '0'.toNat + 52)
  else if c = '+' then some 62
  else if c = '/' then some 63
  else none

/-- Decode one padded base64 quartet into its 1, 2 or 3 bytes; `none` on a
character outside the alphabet or misplaced padding. -/
def decodeQuartet (a b c d : Char) : Option (List Nat) :=
  match base64DigitVal a, base64DigitVal b with
  | some va, some vb =>
    if c = '=' then
      if d = '=' then some [va * 4 + vb / 16] else none
    else
      match base64DigitVal c with
      | some vc =>
        if d = '=' then some [va * 4 + vb / 16, (vb % 16) * 16 + vc / 4]
        else
          match base64DigitVal d with
          | some vd =>
            some [va * 4 + vb / 16, (vb % 16) * 16 + vc / 4,
              (vc % 4) * 64 + vd]
          | none => none
      | none => none
  | _, _ => none

/-- Decode a base64 character stream quartet by quartet; padding is only
allowed in the final quartet, and the length must be a multiple of 4, as in
Go's `base64.StdEncoding`. -/
def decodeGroups : List Char → Option (List Nat)
  | [] => some []
  | a :: b :: c :: d :: rest =>
    if c = '=' ∨ d = '=' then
      if rest = [] then decodeQuartet a b c d else none
    else
      match decodeQuartet a b c d, decodeGroups rest with
      | some bytes, some more => some (bytes ++ more)
      | _, _ => none
  | _ => none

/-- `base64.StdEncoding.DecodeString` of `encoding/base64`, modelled over
characters-as-bytes: carriage returns and newlines are ignored, everything
else must be well-formed padded base64.  The decoded bytes are returned as
a string, as `string(credentials)` does in the handler. -/
def base64Decode (s : String) : Option String :=
  (decodeGroups (s.data.filter
      (fun ch => !(ch == '\r') && !(ch == '\n')))).map
    (fun bs => String.mk (bs.map Char.ofNat))

/-- `strings.SplitN(s, ":", 2)` restricted to the handler's use: `none`
when the string has no colon (Go then yields a single part, which the
handler rejects), otherwise the parts before and after the first colon. -/
def splitFirstColon : List Char → Option (List Char × List Char)
  | [] => none
  | c :: rest =>
    if c = ':' then some ([], rest)
    else
      match splitFirstColon rest with
      | some (before, after) => some (c :: before, after)
      | none => none

/-- Boolean list-prefix test used by the HTML pattern matcher. -/
def listPre : List Char → List Char → Bool
  | [], _ => true
  | _ :: _, [] => false
  | a :: as, b :: bs => a == b && listPre as bs

/-- The character class `\s` of Go's `regexp`: `[\t\n\f\r ]`. -/
def reSpace (c : Char) : Bool :=
  c == ' ' || c == '\t' || c == '\n' || c == '\x0C' || c == '\r'

/-- After at least the spaces at the head, the literal `href` must follow
(the `\s+href` tail of the `<a\s+href` alternative). -/
def hrefAfterSpaces : List Char → Bool
  | [] => false
  | c :: rest =>
    if reSpace c then hrefAfterSpaces rest
    else listPre ['h', 'r', 'e', 'f'] (c :: rest)

/-- The `<a\s+href` alternative of the HTML regex, at the head of the
list. -/
def matchAnchorHref : List Char → Bool
  | '<' :: 'a' :: c :: rest => reSpace c && hrefAfterSpaces (c :: rest)
  | _ => false

/-- The `<h[1-6]` alternative of the HTML regex, at the head of the list. -/
def matchHeading : List Char → Bool
  | '<' :: 'h' :: d :: _ => decide ('1' ≤ d) && decide (d ≤ '6')
  | _ => false

/-- One of the regex alternatives matches at the head of the (already
lowercased) list. -/
def htmlAt (cs : List Char) : Bool :=
  listPre ['<', 'h', 't', 'm', 'l'] cs ||
  listPre ['<', 'b', 'o', 'd', 'y'] cs ||
  listPre ['<', 'd', 'i', 'v'] cs ||
  listPre ['<', 'p', '>'] cs ||
  listPre ['<', 't', 'a', 'b', 'l', 'e'] cs ||
  matchAnchorHref cs ||
  listPre ['<', 'i', 'm', 'g'] cs ||
  listPre ['<', 's', 'p', 'a', 'n'] cs ||
  matchHeading cs ||
  listPre "<!doctype html>".data cs

/-- Some regex alternative matches at some position. -/
def htmlScan : List Char → Bool
  | [] => false
  | c :: rest => htmlAt (c :: rest) || htmlScan rest

/-- `isHTML` of `main.go`: the case-insensitive regex
`<html|<body|<div|<p>|<table|<a\s+href|<img|<span|<h[1-6]|<!DOCTYPE html>`
matches somewhere in the content.  Case-insensitivity is modelled by
ASCII-lowercasing the content (all pattern letters are ASCII). -/
def isHTML (content : String) : Bool :=
  htmlScan (content.data.map Char.toLower)

/-- `isSeparator` of Go's `strings` package, ASCII branch: ASCII
alphanumerics and underscore are not separators, every other ASCII
character is.  Non-ASCII runes are modelled as non-separators (Go treats
non-ASCII letters and digits as non-separators and only Unicode spaces as
separators; Unicode space separators are outside this model's scope). -/
def isSeparator (c : Char) : Bool :=
  if c.toNat ≤ 0x7F then
    if ('0' ≤ c ∧ c ≤ '9') ∨ ('a' ≤ c ∧ c ≤ 'z') ∨ ('A' ≤ c ∧ c ≤ 'Z') ∨
        c = '_' then false
    else true
  else false

/-- The mapping loop of `strings.Title`: a character following a separator
(the scan starts with `prev = ' '`, itself a separator) is mapped to upper
case (`unicode.ToTitle` agrees with `toUpper` on ASCII); `prev` tracks the
original character. -/
def titleMap (prev : Char) : List Char → List Char
  | [] => []
  | c :: rest => (if isSeparator prev then c.toUpper else c) :: titleMap c rest

/-- `strings.Title` of Go's `strings` package. -/
def stringsTitle (s : String) : String :=
  String.mk (titleMap ' ' s.data)

/-- The capitalization as the spec words it: each character is uppercased
exactly when it begins a word, i.e. it is the first character or the
preceding character is a separator. -/
def specCapitalize (s : String) : String :=
  String.mk ((s.data.zip (' ' :: s.data)).map
    (fun p => if isSeparator p.2 then p.1.toUpper else p.1))

/-- `strings.Split(username, "@")[0]`: the part before the first `@` (the
whole string when there is no `@`). -/
def localPart (username : String) : String :=
  String.mk (username.data.takeWhile (fun c => !(c == '@')))

/-- The display-title computation of `GetMailHandler` (lines 193-204 of
`main.go`). -/
def computeTitle (username reqTitle : String) : String :=
  if reqTitle ≠ "" then "\"" ++ reqTitle ++ "\" <" ++ username ++ ">"
  else if username.data.contains '@' then
    "\"" ++ stringsTitle (localPart username) ++ "\" <" ++ username ++ ">"
  else username

/-- `strings.Join(to, ", ")`. -/
def joinComma : List String → String
  | [] => ""
  | [s] => s
  | s :: rest@(_ :: _) => s ++ ", " ++ joinComma rest

/-- The message assembly of `GetMailHandler` (lines 206-227 of `main.go`):
header block, blank line, raw content. -/
def buildMsg (title : String) (toRecipients : List String)
    (subject content : String) (isHTMLContent : Bool) : String :=
  if isHTMLContent then
    "From: " ++ title ++ "\n" ++ "To: " ++ joinComma toRecipients ++ "\n" ++
      "Subject: " ++ subject ++ "\n" ++ "MIME-Version: 1.0\n" ++
      "Content-Type: text/html; charset=UTF-8\n\n" ++ content
  else
    "From: " ++ title ++ "\n" ++ "To: " ++ joinComma toRecipients ++ "\n" ++
      "Subject: " ++ subject ++ "\n" ++
      "Content-Type: text/plain; charset=UTF-8\n\n" ++ content

/-- `EmailRequest` of `main.go`.  The optional `title` field is the empty
string when absent, as for a Go `omitempty` string field.  (`to` is a
reserved token in this environment, hence the field name `toRecipients`.) -/
structure EmailRequest where
  toRecipients : List String
  subject : String
  content : String
  title : String

/-- The parts of the HTTP request the handler inspects.  `authorization`
is the result of `r.Header.Get("Authorization")` (empty when the header is
absent).  `body` is the outcome of `json.NewDecoder(r.Body).Decode`:
`none` for malformed JSON, otherwise the decoded `EmailRequest` (the JSON
decoder itself is a stdlib collaborator and is modelled by its result). -/
structure HttpRequest where
  method : String
  authorization : String
  body : Option EmailRequest

/-- Outcome of the `smtp.SendMail` collaborator call, an input to the
handler model. -/
inductive RelayResult where
  | ok : RelayResult
  | err : String → RelayResult

/-- A record of the relay invocation the handler makes: the fixed relay
address, the `PlainAuth` credentials, the envelope sender and recipients,
and the assembled message. -/
structure SmtpCall where
  addr : String
  authUser : String
  authPass : String
  fromAddr : String
  recipients : List String
  msg : String
  deriving DecidableEq

/-- Observable outcome of one handler invocation: HTTP status, response
message, rate limiter state afterwards, and the relay call if one was
made. -/
structure HandlerResult where
  status : Nat
  body : String
  limiter : RateLimiter
  relay : Option SmtpCall

/-- The part of `GetMailHandler` after the rate-limit admission (lines
177-248 of `main.go`): body decoding, field validation, content type
detection, title and message assembly, relay call, response.  `limiter` is
the rate limiter state as left by the `Allow` call; no later step touches
it. -/
def handleAdmitted (limiter : RateLimiter) (username password : String)
    (reqBody : Option EmailRequest) (relayResult : RelayResult) :
    HandlerResult :=
  match reqBody with
  | none =>
    { status := 400, body := "Invalid request body",
      limiter := limiter, relay := none }
  | some emailReq =>
    if emailReq.toRecipients.length = 0 ∨ emailReq.subject = "" ∨
        emailReq.content = "" then
      { status := 400,
        body := "Missing required fields (to, subject, content)",
        limiter := limiter, relay := none }
    else
      let isHTMLContent := isHTML emailReq.content
      let title := computeTitle username emailReq.title
      let msg := buildMsg title emailReq.toRecipients emailReq.subject
        emailReq.content isHTMLContent
      let call : SmtpCall :=
        { addr := "box.domain.com:587", authUser := username,
          authPass := password, fromAddr := username,
          recipients := emailReq.toRecipients, msg := msg }
      match relayResult with
      | RelayResult.err e =>
        { status := 500, body := "Failed to send email: " ++ e,
          limiter := limiter, relay := some call }
      | RelayResult.ok =>
        { status := 200, body := "Email sent successfully",
          limiter := limiter, relay := some call }

/-- `GetMailHandler` of `main.go` (lines 141-248): method check, Basic
auth extraction, rate limiting, then `handleAdmitted`. -/
def GetMailHandler (rl : RateLimiter) (req : HttpRequest) (now : Nat)
    (relayResult : RelayResult) : HandlerResult :=
  if req.method ≠ "POST" then
    { status := 405, body := "Method not allowed", limiter := rl,
      relay := none }
  else if req.authorization = "" ∨
      ¬ listPre "Basic ".data req.authorization.data then
    { status := 401, body := "Authentication required", limiter := rl,
      relay := none }
  else
    match base64Decode (String.mk (req.authorization.data.drop 6)) with
    | none =>
      { status := 401, body := "Invalid authentication format",
        limiter := rl, relay := none }
    | some credentials =>
      match splitFirstColon credentials.data with
      | none =>
        { status := 401, body := "Invalid authentication format",
          limiter := rl, relay := none }
      | some (userChars, passChars) =>
        let username := String.mk userChars
        let password := String.mk passChars
        let res := rl.Allow username now
        if res.1 = false then
          { status := 429, body := "Rate limit exceeded", limiter := res.2,
            relay := none }
        else
          handleAdmitted res.2 username password req.body relayResult

theorem getMailHandler_admitted (rl : RateLimiter) (req : HttpRequest)
    (now : Nat) (rr : RelayResult) (uc pc : List Char) (cred : String)
    (hm : req.method = "POST")
    (hne : ¬ (req.authorization = "" ∨
      ¬ listPre "Basic ".data req.authorization.data))
    (hdec : base64Decode (String.mk (req.authorization.data.drop 6)) =
      some cred)
    (hsplit : splitFirstColon cred.data = some (uc, pc))
    (hallow : (rl.Allow (String.mk uc) now).1 = true) :
    GetMailHandler rl req now rr =
      handleAdmitted (rl.Allow (String.mk uc) now).2 (String.mk uc)
        (String.mk pc) req.body rr := by
  unfold GetMailHandler
  rw [if_neg (by simp [hm])]
  rw [if_neg hne]
  rw [hdec]
  dsimp only
  rw [hsplit]
  dsimp only
  rw [if_neg (by simp [hallow])]

/-- Concrete request body used by several witnesses. -/
def erXsc : EmailRequest :=
  { toRecipients := ["x"], subject := "s", content := "c", title := "" }

/-- Concrete request body whose `to` list holds only empty strings. -/
def erEmpties : EmailRequest :=
  { toRecipients := ["", ""], subject := "s", content := "c", title := "" }

/-- Concrete request with valid Basic credentials `a:b` (base64 `YTpi`). -/
def reqOkAuth (b : Option EmailRequest) : HttpRequest :=
  { method := "POST", authorization := "Basic YTpi", body := b }

/-- C9: for every admitted request, the rate limiter state after the
handler completes is exactly the state immediately after the `Allow` call,
whatever the body, the validation outcome, and the relay result are: no
later step touches the bucket. -/
theorem c9_limiter_frame (rl : RateLimiter) (req : HttpRequest) (now : Nat)
    (rr : RelayResult) (uc pc : List Char) (cred : String)
    (hm : req.method = "POST")
    (hne : ¬ (req.authorization = "" ∨
      ¬ listPre "Basic ".data req.authorization.data))
    (hdec : base64Decode (String.mk (req.authorization.data.drop 6)) =
      some cred)
    (hsplit : splitFirstColon cred.data = some (uc, pc))
    (hallow : (rl.Allow (String.mk uc) now).1 = true) :
    (GetMailHandler rl req now rr).limiter =
      (rl.Allow (String.mk uc) now).2 := by
  rw [getMailHandler_admitted rl req now rr uc pc cred hm hne hdec hsplit
    hallow]
  unfold handleAdmitted
  cases req.body with
  | none => rfl
  | some er =>
    dsimp only
    split
    · rfl
    · cases rr <;> rfl

/-- C9 witness: an admitted request with credentials `a:b` whose relay
fails still leaves the limiter exactly as the `Allow` call left it. -/
theorem c9_limiter_frame_witness :
    (GetMailHandler (NewRateLimiter 10) (reqOkAuth (some erXsc)) 0
        (RelayResult.err "boom")).limiter =
      ((NewRateLimiter 10).Allow (String.mk "a".data) 0).2 :=
  c9_limiter_frame (NewRateLimiter 10) (reqOkAuth (some erXsc)) 0
    (RelayResult.err "boom") "a".data "b".data "a:b" rfl (by decide)
    (by decide) (by decide) (by decide)

/-- C10: once a request is admitted and its body parses, the handler
responds 400 exactly when the `to` list is empty, the subject is empty, or
the content is empty; the recipient strings themselves are never
inspected, so a nonempty `to` list consisting only of empty strings passes
validation and the request proceeds to the relay attempt with exactly that
list. -/
theorem c10_validation_iff (rl : RateLimiter) (req : HttpRequest)
    (now : Nat) (rr : RelayResult) (uc pc : List Char) (cred : String)
    (er : EmailRequest)
    (hm : req.method = "POST")
    (hne : ¬ (req.authorization = "" ∨
      ¬ listPre "Basic ".data req.authorization.data))
    (hdec : base64Decode (String.mk (req.authorization.data.drop 6)) =
      some cred)
    (hsplit : splitFirstColon cred.data = some (uc, pc))
    (hallow : (rl.Allow (String.mk uc) now).1 = true)
    (hbody : req.body = some er) :
    ((GetMailHandler rl req now rr).status = 400 ↔
      (er.toRecipients.length = 0 ∨ er.subject = "" ∨ er.content = "")) ∧
    (er.toRecipients.length ≠ 0 → (∀ s ∈ er.toRecipients, s = "") →
      er.subject ≠ "" → er.content ≠ "" →
      ∃ call, (GetMailHandler rl req now rr).relay = some call ∧
        call.recipients = er.toRecipients) := by
  rw [getMailHandler_admitted rl req now rr uc pc cred hm hne hdec hsplit
    hallow, hbody]
  simp only [handleAdmitted]
  by_cases hval : er.toRecipients.length = 0 ∨ er.subject = "" ∨
      er.content = ""
  · rw [if_pos hval]
    refine ⟨⟨fun _ => hval, fun _ => rfl⟩, fun h1 h2 h3 h4 => ?_⟩
    rcases hval with h | h | h
    · exact absurd h h1
    · exact absurd h h3
    · exact absurd h h4
  · rw [if_neg hval]
    cases rr with
    | err e =>
      dsimp only
      exact ⟨⟨fun h => absurd h (by decide), fun h => absurd h hval⟩,
        fun _ _ _ _ => ⟨_, rfl, rfl⟩⟩
    | ok =>
      dsimp only
      exact ⟨⟨fun h => absurd h (by decide), fun h => absurd h hval⟩,
        fun _ _ _ _ => ⟨_, rfl, rfl⟩⟩

/-- C10 witness: a `to` list of two empty strings with nonempty subject
and content is not rejected: the relay is attempted with those two empty
recipients. -/
theorem c10_validation_iff_witness :
    ((GetMailHandler (NewRateLimiter 10) (reqOkAuth (some erEmpties)) 0
        RelayResult.ok).status = 400 ↔
      (erEmpties.toRecipients.length = 0 ∨ erEmpties.subject = "" ∨
        erEmpties.content = "")) ∧
    (erEmpties.toRecipients.length ≠ 0 →
      (∀ s ∈ erEmpties.toRecipients, s = "") → erEmpties.subject ≠ "" →
      erEmpties.content ≠ "" →
      ∃ call, (GetMailHandler (NewRateLimiter 10)
        (reqOkAuth (some erEmpties)) 0 RelayResult.ok).relay =
          some call ∧ call.recipients = erEmpties.toRecipients) :=
  c10_validation_iff (NewRateLimiter 10) (reqOkAuth (some erEmpties)) 0
    RelayResult.ok "a".data "b".data "a:b" erEmpties
    rfl (by decide) (by decide) (by decide) (by decide) rfl

/-- The handler's notion of a missing or malformed `Authorization` header:
absent or not of scheme `Basic `, undecodable base64 payload, or a decoded
payload without a colon. -/
def authMalformed (a : String) : Bool :=
  a == "" || !listPre "Basic ".data a.data ||
  (match base64Decode (String.mk (a.data.drop 6)) with
   | none => true
   | some credentials => (splitFirstColon credentials.data).isNone)

/-- C5: the handler checks its contract steps in order and short-circuits:
any non-POST request is answered 405 whatever its headers and body, and a
POST request whose parsed body has all three required fields but whose
`Authorization` header is missing or malformed is answered 401, not 400. -/
theorem c5_short_circuit (rl : RateLimiter) (req : HttpRequest) (now : Nat)
    (rr : RelayResult) :
    (req.method ≠ "POST" → (GetMailHandler rl req now rr).status = 405) ∧
    (req.method = "POST" → authMalformed req.authorization = true →
      ∀ er, req.body = some er → er.toRecipients.length ≠ 0 →
        er.subject ≠ "" → er.content ≠ "" →
        (GetMailHandler rl req now rr).status = 401) := by
  constructor
  · intro hm
    unfold GetMailHandler
    rw [if_pos hm]
  · intro hm hbad er _ _ _ _
    unfold GetMailHandler
    rw [if_neg (by simp [hm])]
    by_cases h0 : req.authorization = "" ∨
        ¬ listPre "Basic ".data req.authorization.data
    · rw [if_pos h0]
    · rw [if_neg h0]
      push_neg at h0
      obtain ⟨hne1, hne2⟩ := h0
      cases hdec : base64Decode (String.mk (req.authorization.data.drop 6))
        with
      | none => rfl
      | some cred =>
        cases hsplit : splitFirstColon cred.data with
        | none => dsimp only; rw [hsplit]
        | some pr =>
          exfalso
          unfold authMalformed at hbad
          rw [hdec] at hbad
          simp [hne1, hne2, hsplit] at hbad

/-- C5 witness: a GET request is answered 405, and a POST request whose
body has all three fields but whose Authorization payload is not base64 is
answered 401. -/
theorem c5_short_circuit_witness :
    (GetMailHandler (NewRateLimiter 10)
      { method := "GET", authorization := "Basic !!!!",
        body := some erXsc } 0 RelayResult.ok).status = 405 ∧
    (GetMailHandler (NewRateLimiter 10)
      { method := "POST", authorization := "Basic !!!!",
        body := some erXsc } 0 RelayResult.ok).status = 401 :=
  ⟨(c5_short_circuit (NewRateLimiter 10)
      { method := "GET", authorization := "Basic !!!!",
        body := some erXsc } 0 RelayResult.ok).1 (by decide),
   (c5_short_circuit (NewRateLimiter 10)
      { method := "POST", authorization := "Basic !!!!",
        body := some erXsc } 0 RelayResult.ok).2 rfl (by decide) erXsc rfl
      (by decide) (by decide) (by decide)⟩

theorem titleMap_zip (l : List Char) : ∀ prev, titleMap prev l =
    (l.zip (prev :: l)).map
      (fun p => if isSeparator p.2 then p.1.toUpper else p.1) := by
  induction l with
  | nil => intro prev; rfl
  | cons c rest ih =>
    intro prev
    simp only [titleMap, List.zip_cons_cons, List.map_cons, ih c]

theorem stringsTitle_eq_specCapitalize (s : String) :
    stringsTitle s = specCapitalize s := by
  unfold stringsTitle specCapitalize
  rw [titleMap_zip]

/-- C8: the From display title is the quoted request title when one is
given; else, for an email-shaped username, the quoted local part with each
word-initial character uppercased (`strings.Title` agrees with that
per-word description); else the bare username. -/
theorem c8_display_title (username reqTitle : String) :
    (reqTitle ≠ "" → computeTitle username reqTitle =
      "\"" ++ reqTitle ++ "\" <" ++ username ++ ">") ∧
    (reqTitle = "" → username.data.contains '@' = true →
      computeTitle username reqTitle =
        "\"" ++ specCapitalize (localPart username) ++ "\" <" ++
          username ++ ">") ∧
    (reqTitle = "" → username.data.contains '@' = false →
      computeTitle username reqTitle = username) ∧
    stringsTitle (localPart username) = specCapitalize (localPart username)
    := by
  refine ⟨?_, ?_, ?_, stringsTitle_eq_specCapitalize _⟩
  · intro h
    unfold computeTitle
    rw [if_pos h]
  · intro h hc
    unfold computeTitle
    rw [if_neg (by simp [h]), if_pos hc, stringsTitle_eq_specCapitalize]
  · intro h hc
    unfold computeTitle
    rw [if_neg (by simp [h]), if_neg (by rw [hc]; simp)]

/-- C8 witness: username `alice@example.com` with no request title takes
the capitalized-local-part branch. -/
theorem c8_display_title_witness :
    computeTitle "alice@example.com" "" =
      "\"" ++ specCapitalize (localPart "alice@example.com") ++ "\" <" ++
        "alice@example.com" ++ ">" :=
  (c8_display_title "alice@example.com" "").2.1 rfl (by decide)

/-- `sub` occurs as a contiguous substring of `s`. -/
def strContainsSub (s sub : String) : Prop :=
  ∃ l r, s.data = l ++ sub.data ++ r

theorem strData_append (a b : String) :
    (a ++ b).data = a.data ++ b.data := by
  cases a
  cases b
  rfl

theorem strContainsSub_append_left (a b sub : String)
    (h : strContainsSub b sub) : strContainsSub (a ++ b) sub := by
  obtain ⟨l, r, hl⟩ := h
  exact ⟨a.data ++ l, r, by rw [strData_append, hl]; simp⟩

theorem strContainsSub_append_right (a b sub : String)
    (h : strContainsSub a sub) : strContainsSub (a ++ b) sub := by
  obtain ⟨l, r, hl⟩ := h
  exact ⟨l, r ++ b.data, by rw [strData_append, hl]; simp⟩

theorem htmlAt_pTag (cs : List Char) :
    htmlAt ('<' :: 'p' :: '>' :: cs) = true := by
  simp [htmlAt, listPre]

theorem htmlScan_append (l r : List Char) (h : htmlAt r = true) :
    htmlScan (l ++ r) = true := by
  induction l with
  | nil =>
    cases r with
    | nil => exact absurd h (by decide)
    | cons c cs => simpa [htmlScan] using Or.inl h
  | cons c l ih => simpa [htmlScan] using Or.inr ih

theorem isHTML_of_pHi (content : String)
    (h : ∃ l r, content.data = l ++ "<p>hi</p>".data ++ r) :
    isHTML content = true := by
  obtain ⟨l, r, hl⟩ := h
  unfold isHTML
  rw [hl]
  simp only [List.map_append, List.append_assoc]
  apply htmlScan_append
  rw [show List.map Char.toLower "<p>hi</p>".data =
    '<' :: 'p' :: '>' :: ('h' :: 'i' :: '<' :: '/' :: 'p' :: '>' :: [])
    from by decide]
  simp only [List.cons_append]
  exact htmlAt_pTag _

/-- C6: for an otherwise-valid request, the assembled message is the
header block, a blank line, then the raw content; when the content
contains `<p>hi</p>` the header block carries `Content-Type: text/html`
and `MIME-Version: 1.0`, and when the content is exactly `hi` it carries
`Content-Type: text/plain`. -/
theorem c6_content_type (rl : RateLimiter) (req : HttpRequest) (now : Nat)
    (rr : RelayResult) (uc pc : List Char) (cred : String)
    (er : EmailRequest)
    (hm : req.method = "POST")
    (hne : ¬ (req.authorization = "" ∨
      ¬ listPre "Basic ".data req.authorization.data))
    (hdec : base64Decode (String.mk (req.authorization.data.drop 6)) =
      some cred)
    (hsplit : splitFirstColon cred.data = some (uc, pc))
    (hallow : (rl.Allow (String.mk uc) now).1 = true)
    (hbody : req.body = some er)
    (hto : er.toRecipients.length ≠ 0) (hsub : er.subject ≠ "")
    (hcon : er.content ≠ "") :
    ∃ call, (GetMailHandler rl req now rr).relay = some call ∧
      ((∃ l r, er.content.data = l ++ "<p>hi</p>".data ++ r) →
        ∃ header, call.msg = header ++ "\n\n" ++ er.content ∧
          strContainsSub header "Content-Type: text/html" ∧
          strContainsSub header "MIME-Version: 1.0") ∧
      (er.content = "hi" →
        ∃ header, call.msg = header ++ "\n\n" ++ er.content ∧
          strContainsSub header "Content-Type: text/plain") := by
  have hctHtml : ("Content-Type: text/html; charset=UTF-8\n\n" :
      String).data = ("Content-Type: text/html; charset=UTF-8" :
      String).data ++ ("\n\n" : String).data := by decide
  have hctPlain : ("Content-Type: text/plain; charset=UTF-8\n\n" :
      String).data = ("Content-Type: text/plain; charset=UTF-8" :
      String).data ++ ("\n\n" : String).data := by decide
  have hval : ¬ (er.toRecipients.length = 0 ∨ er.subject = "" ∨
      er.content = "") := by
    intro h
    rcases h with h | h | h
    · exact hto h
    · exact hsub h
    · exact hcon h
  rw [getMailHandler_admitted rl req now rr uc pc cred hm hne hdec hsplit
    hallow, hbody]
  simp only [handleAdmitted]
  rw [if_neg hval]
  have hgoal : ∀ callMsg : String,
      callMsg = buildMsg (computeTitle (String.mk uc) er.title)
        er.toRecipients er.subject er.content (isHTML er.content) →
      ((∃ l r, er.content.data = l ++ "<p>hi</p>".data ++ r) →
        ∃ header, callMsg = header ++ "\n\n" ++ er.content ∧
          strContainsSub header "Content-Type: text/html" ∧
          strContainsSub header "MIME-Version: 1.0") ∧
      (er.content = "hi" →
        ∃ header, callMsg = header ++ "\n\n" ++ er.content ∧
          strContainsSub header "Content-Type: text/plain") := by
    intro callMsg hmsg
    constructor
    · intro hph
      have hhtml := isHTML_of_pHi er.content hph
      refine ⟨"From: " ++ computeTitle (String.mk uc) er.title ++ "\n" ++
        "To: " ++ joinComma er.toRecipients ++ "\n" ++ "Subject: " ++
        er.subject ++ "\n" ++ "MIME-Version: 1.0\n" ++
        "Content-Type: text/html; charset=UTF-8", ?_, ?_, ?_⟩
      · rw [hmsg]
        unfold buildMsg
        rw [if_pos hhtml]
        apply String.ext
        simp [strData_append, hctHtml]
      · exact strContainsSub_append_left _ _ _
          ⟨[], ("; charset=UTF-8" : String).data, by decide⟩
      · exact strContainsSub_append_right _ _ _
          (strContainsSub_append_left _ _ _ ⟨[], ['\n'], by decide⟩)
    · intro hhi
      have hplain : isHTML er.content = false := by rw [hhi]; decide
      refine ⟨"From: " ++ computeTitle (String.mk uc) er.title ++ "\n" ++
        "To: " ++ joinComma er.toRecipients ++ "\n" ++ "Subject: " ++
        er.subject ++ "\n" ++ "Content-Type: text/plain; charset=UTF-8",
        ?_, ?_⟩
      · rw [hmsg]
        unfold buildMsg
        rw [if_neg (by rw [hplain]; simp)]
        apply String.ext
        simp [strData_append, hctPlain]
      · exact strContainsSub_append_left _ _ _
          ⟨[], ("; charset=UTF-8" : String).data, by decide⟩
  cases rr with
  | err e =>
    dsimp only
    exact ⟨_, rfl, hgoal _ rfl⟩
  | ok =>
    dsimp only
    exact ⟨_, rfl, hgoal _ rfl⟩

/-- Concrete request body whose content contains `<p>hi</p>`. -/
def erHtml : EmailRequest :=
  { toRecipients := ["x"], subject := "s", content := "a<p>hi</p>b",
    title := "" }

/-- C6 witness: the round-trip theorem instantiated on a concrete admitted
request whose content contains `<p>hi</p>`. -/
theorem c6_content_type_witness :
    ∃ call, (GetMailHandler (NewRateLimiter 10) (reqOkAuth (some erHtml))
        0 RelayResult.ok).relay = some call ∧
      ((∃ l r, erHtml.content.data = l ++ "<p>hi</p>".data ++ r) →
        ∃ header, call.msg = header ++ "\n\n" ++ erHtml.content ∧
          strContainsSub header "Content-Type: text/html" ∧
          strContainsSub header "MIME-Version: 1.0") ∧
      (erHtml.content = "hi" →
        ∃ header, call.msg = header ++ "\n\n" ++ erHtml.content ∧
          strContainsSub header "Content-Type: text/plain") :=
  c6_content_type (NewRateLimiter 10) (reqOkAuth (some erHtml)) 0
    RelayResult.ok "a".data "b".data "a:b" erHtml rfl (by decide)
    (by decide) (by decide) (by decide) rfl (by decide) (by decide)
    (by decide)

/-- Repeated `Allow` calls for the same identity at the same instant:
returns the list of decisions and the final limiter state. -/
def allowRepeat (rl : RateLimiter) (u : String) (now : Nat) :
    Nat → List Bool × RateLimiter
  | 0 => ([], rl)
  | n + 1 =>
    let r := rl.Allow u now
    let rest := allowRepeat r.2 u now n
    (r.1 :: rest.1, rest.2)

set_option maxRecDepth 1000000 in
/-- C7: for a fresh identity with `maxPerSec = 10`, twenty `Allow` calls
in the same second (here at one instant, so no refill intervenes) are all
admitted, exhausting the 20-token burst; the 21st call is denied, and the
handler answers that request 429 with no relay attempt. -/
theorem c7_burst_scenario :
    (allowRepeat (NewRateLimiter 10) "a" 0 20).1 =
      List.replicate 20 true ∧
    (((allowRepeat (NewRateLimiter 10) "a" 0 20).2).Allow "a" 0).1 =
      false ∧
    (GetMailHandler (allowRepeat (NewRateLimiter 10) "a" 0 20).2
        (reqOkAuth (some erXsc)) 0 RelayResult.ok).status = 429 ∧
    (GetMailHandler (allowRepeat (NewRateLimiter 10) "a" 0 20).2
        (reqOkAuth (some erXsc)) 0 RelayResult.ok).relay = none :=
  ⟨by decide, by decide, by decide, by decide⟩
